import Mathlib

/-!
Verification of the vector-search / RAG-orchestration core of the
`rag-backend` repository, shallowly embedded in Lean.

Embedded source locations:
* `app/vector_store/mongodb_store.py` — `_local_similarity_search`
  (cosine similarity, owner filtering, stable descending sort, top-k)
  and the exception-catching wrapper `similarity_search`;
* `app/rag/engine.py` — the `retrieve` tool, `call_model` system-message
  injection, and `process_message` fallback handling;
* `app/db/checkpointer.py` — `MongoDBCheckpointer.get` / `put`;
* `app/vector_store/faiss_store.py` / `mongodb_store.py` — the
  `add_documents` metadata-tagging effect on the caller's documents.

Python floats are modelled as real numbers; Python `None` as `Option.none`;
Python string truthiness (`if user_id:`) is modelled explicitly, so that
`some ""` and `none` both fail the truthiness test, exactly as in CPython.
-/

/-- `np.dot` on two 1-D vectors: the sum of the elementwise products
(`mongodb_store.py` line 205). -/
def dotProduct (a b : List ℝ) : ℝ := (List.zipWith (fun x y => x * y) a b).sum

/-- `np.linalg.norm`: the Euclidean norm, i.e. the square root of the sum of
the squares (`mongodb_store.py` lines 206-207). -/
noncomputable def l2Norm (a : List ℝ) : ℝ := Real.sqrt (dotProduct a a)

open Classical in
/-- The cosine-similarity computation of `_local_similarity_search`
(`mongodb_store.py` lines 204-212): `dot / (norm_query * norm_doc)`, with the
guard `if norm_query == 0 or norm_doc == 0: similarity = 0`. -/
noncomputable def cosineSimilarity (a b : List ℝ) : ℝ :=
  if l2Norm a = 0 ∨ l2Norm b = 0 then 0 else dotProduct a b / (l2Norm a * l2Norm b)

theorem dotProduct_one_zero : dotProduct [(1 : ℝ), 0] [(1 : ℝ), 0] = 1 := by
  simp [dotProduct]

theorem dotProduct_zero_one : dotProduct [(0 : ℝ), 1] [(0 : ℝ), 1] = 1 := by
  simp [dotProduct]

theorem l2Norm_one_zero : l2Norm [(1 : ℝ), 0] = 1 := by
  rw [l2Norm, dotProduct_one_zero, Real.sqrt_one]

theorem l2Norm_zero_one : l2Norm [(0 : ℝ), 1] = 1 := by
  rw [l2Norm, dotProduct_zero_one, Real.sqrt_one]

theorem l2Norm_zero_zero : l2Norm [(0 : ℝ), 0] = 0 := by
  have h : dotProduct [(0 : ℝ), 0] [(0 : ℝ), 0] = 0 := by simp [dotProduct]
  rw [l2Norm, h, Real.sqrt_zero]

/-- C1: the similarity computed by the local similarity search is cosine
similarity `dot(a,b) / (||a|| * ||b||)`; when either norm is zero the result
is zero (the division is never reached with a zero divisor, and the function
is total, so it never raises); on the spec's test vectors it yields 1, 0 and
0 respectively. -/
theorem cosineSimilarity_spec :
    (∀ a b : List ℝ, (l2Norm a = 0 ∨ l2Norm b = 0) → cosineSimilarity a b = 0)
    ∧ (∀ a b : List ℝ, l2Norm a ≠ 0 → l2Norm b ≠ 0 →
        l2Norm a * l2Norm b ≠ 0
        ∧ cosineSimilarity a b = dotProduct a b / (l2Norm a * l2Norm b))
    ∧ cosineSimilarity [(1 : ℝ), 0] [(1 : ℝ), 0] = 1
    ∧ cosineSimilarity [(1 : ℝ), 0] [(0 : ℝ), 1] = 0
    ∧ (∀ b : List ℝ, cosineSimilarity [(0 : ℝ), 0] b = 0) := by
  have hzero : ∀ a b : List ℝ, (l2Norm a = 0 ∨ l2Norm b = 0) →
      cosineSimilarity a b = 0 := by
    intro a b h
    rw [cosineSimilarity, if_pos h]
  have hpos : ∀ a b : List ℝ, l2Norm a ≠ 0 → l2Norm b ≠ 0 →
      l2Norm a * l2Norm b ≠ 0
      ∧ cosineSimilarity a b = dotProduct a b / (l2Norm a * l2Norm b) := by
    intro a b ha hb
    refine ⟨mul_ne_zero ha hb, ?_⟩
    rw [cosineSimilarity, if_neg (by tauto)]
  refine ⟨hzero, hpos, ?_, ?_, ?_⟩
  · have h := (hpos [(1 : ℝ), 0] [(1 : ℝ), 0]
      (by rw [l2Norm_one_zero]; norm_num) (by rw [l2Norm_one_zero]; norm_num)).2
    rw [h, dotProduct_one_zero, l2Norm_one_zero]
    norm_num
  · have h := (hpos [(1 : ℝ), 0] [(0 : ℝ), 1]
      (by rw [l2Norm_one_zero]; norm_num) (by rw [l2Norm_zero_one]; norm_num)).2
    have hd : dotProduct [(1 : ℝ), 0] [(0 : ℝ), 1] = 0 := by simp [dotProduct]
    rw [h, hd, l2Norm_one_zero, l2Norm_zero_one]
    norm_num
  · intro b
    exact hzero _ b (Or.inl l2Norm_zero_zero)

/-- Witness for `cosineSimilarity_spec`: instantiating the nonzero-norm
branch at the concrete vectors `[1,0]` and `[0,1]`. -/
theorem cosineSimilarity_spec_witness :
    l2Norm [(1 : ℝ), 0] ≠ 0
    ∧ cosineSimilarity [(1 : ℝ), 0] [(0 : ℝ), 1]
        = dotProduct [(1 : ℝ), 0] [(0 : ℝ), 1]
          / (l2Norm [(1 : ℝ), 0] * l2Norm [(0 : ℝ), 1]) := by
  have ha : l2Norm [(1 : ℝ), 0] ≠ 0 := by rw [l2Norm_one_zero]; norm_num
  have hb : l2Norm [(0 : ℝ), 1] ≠ 0 := by rw [l2Norm_zero_one]; norm_num
  exact ⟨ha, (cosineSimilarity_spec.2.1 _ _ ha hb).2⟩

/-- One stored record of the `vectors` collection, as consumed by
`_local_similarity_search`: the chunk text, its embedding, and the optional
`metadata.user_id` owner tag (`mongodb_store.py` lines 72-80). -/
structure StoredDoc where
  text : String
  embedding : List ℝ
  userId : Option String

/-- CPython truthiness of an optional string argument, as tested by
`if user_id:` — `None` and the empty string are both falsy. -/
def pyTruthy : Option String → Bool
  | none => false
  | some s => !(s == "")

/-- The candidate set of `_local_similarity_search` (`mongodb_store.py`
lines 186-192): all stored records in insertion order, filtered down to one
owner when (and only when) `user_id` is truthy.  Each candidate is paired
with its insertion index. -/
def candidates (store : List StoredDoc) (userId : Option String) :
    List (ℕ × StoredDoc) :=
  if pyTruthy userId then
    store.enum.filter (fun p => p.2.userId == userId)
  else
    store.enum

/-- One step of the stable descending sort performed by
`similarities.sort(key=lambda x: x[1], reverse=True)` (`mongodb_store.py`
line 217): insert `x` in front of the first already-placed element whose
score is not larger, so that of two equal scores the earlier-inserted
element stays first — exactly the stability guarantee of Python's sort. -/
noncomputable def insertDesc {α : Type} (x : α × ℝ) :
    List (α × ℝ) → List (α × ℝ)
  | [] => [x]
  | y :: ys => if y.2 ≤ x.2 then x :: y :: ys else y :: insertDesc x ys

/-- The stable descending sort of the scored candidate list
(`mongodb_store.py` line 217). -/
noncomputable def sortDesc {α : Type} : List (α × ℝ) → List (α × ℝ)
  | [] => []
  | x :: xs => insertDesc x (sortDesc xs)

/-- `_local_similarity_search` (`mongodb_store.py` lines 184-226): filter the
store by owner, return `[]` when no candidate remains, otherwise score every
candidate by cosine similarity against the query embedding, sort by score
descending (stably) and keep the first `k`. -/
noncomputable def localSimilaritySearch (queryEmbedding : List ℝ)
    (store : List StoredDoc) (k : ℕ) (userId : Option String) :
    List ((ℕ × StoredDoc) × ℝ) :=
  let allDocs := candidates store userId
  if allDocs.isEmpty then []
  else
    let similarities := allDocs.map
      (fun d => (d, cosineSimilarity queryEmbedding d.2.embedding))
    (sortDesc similarities).take k

theorem insertDesc_perm {α : Type} (x : α × ℝ) (l : List (α × ℝ)) :
    List.Perm (insertDesc x l) (x :: l) := by
  induction l with
  | nil => simp [insertDesc]
  | cons y ys ih =>
    rw [insertDesc]
    by_cases h : y.2 ≤ x.2
    · rw [if_pos h]
    · rw [if_neg h]
      exact (ih.cons y).trans (List.Perm.swap x y ys)

theorem sortDesc_perm {α : Type} (l : List (α × ℝ)) :
    List.Perm (sortDesc l) l := by
  induction l with
  | nil => simp [sortDesc]
  | cons x xs ih =>
    rw [sortDesc]
    exact (insertDesc_perm x (sortDesc xs)).trans (ih.cons x)

theorem mem_insertDesc {α : Type} {z x : α × ℝ} {l : List (α × ℝ)} :
    z ∈ insertDesc x l ↔ z = x ∨ z ∈ l := by
  rw [(insertDesc_perm x l).mem_iff, List.mem_cons]

/-- The sort places scores in non-increasing order, and keeps elements with
equal scores in their input order (stability), provided the input carries
strictly increasing tags `ix`.  Proved simultaneously for one insertion. -/
theorem insertDesc_pairwise {α : Type} (ix : α → ℕ) (x : α × ℝ)
    (l : List (α × ℝ))
    (hsort : l.Pairwise (fun a b => b.2 ≤ a.2))
    (hst : l.Pairwise (fun a b => a.2 = b.2 → ix a.1 < ix b.1))
    (hx : ∀ y ∈ l, ix x.1 < ix y.1) :
    (insertDesc x l).Pairwise (fun a b => b.2 ≤ a.2)
    ∧ (insertDesc x l).Pairwise (fun a b => a.2 = b.2 → ix a.1 < ix b.1) := by
  induction l with
  | nil => simp [insertDesc]
  | cons y ys ih =>
    rw [insertDesc]
    rcases List.pairwise_cons.mp hsort with ⟨hy_ge, hys_sort⟩
    rcases List.pairwise_cons.mp hst with ⟨hy_st, hys_st⟩
    by_cases h : y.2 ≤ x.2
    · rw [if_pos h]
      constructor
      · refine List.pairwise_cons.mpr ⟨?_, hsort⟩
        intro z hz
        rcases List.mem_cons.mp hz with rfl | hz
        · exact h
        · exact le_trans (hy_ge z hz) h
      · refine List.pairwise_cons.mpr ⟨?_, hst⟩
        intro z hz _
        exact hx z hz
    · rw [if_neg h]
      have hx' : ∀ z ∈ ys, ix x.1 < ix z.1 := fun z hz => hx z (List.mem_cons_of_mem y hz)
      rcases ih hys_sort hys_st hx' with ⟨ih_sort, ih_st⟩
      constructor
      · refine List.pairwise_cons.mpr ⟨?_, ih_sort⟩
        intro z hz
        rcases mem_insertDesc.mp hz with rfl | hz
        · exact le_of_lt (lt_of_not_le h)
        · exact hy_ge z hz
      · refine List.pairwise_cons.mpr ⟨?_, ih_st⟩
        intro z hz heq
        rcases mem_insertDesc.mp hz with rfl | hz
        · exact absurd (le_of_eq heq) h
        · exact hy_st z hz heq

theorem sortDesc_pairwise {α : Type} (ix : α → ℕ) (l : List (α × ℝ))
    (h : l.Pairwise (fun a b => ix a.1 < ix b.1)) :
    (sortDesc l).Pairwise (fun a b => b.2 ≤ a.2)
    ∧ (sortDesc l).Pairwise (fun a b => a.2 = b.2 → ix a.1 < ix b.1) := by
  induction l with
  | nil => simp [sortDesc]
  | cons x xs ih =>
    rw [sortDesc]
    rcases List.pairwise_cons.mp h with ⟨hx, hxs⟩
    rcases ih hxs with ⟨ih_sort, ih_st⟩
    exact insertDesc_pairwise ix x (sortDesc xs) ih_sort ih_st
      (fun y hy => hx y ((sortDesc_perm xs).mem_iff.mp hy))

theorem le_fst_of_mem_enumFrom {α : Type} :
    ∀ (l : List α) (n : ℕ), ∀ p ∈ l.enumFrom n, n ≤ p.1 := by
  intro l
  induction l with
  | nil => intro n p hp; simp [List.enumFrom] at hp
  | cons x xs ih =>
    intro n p hp
    rcases List.mem_cons.mp hp with rfl | hp
    · exact le_refl n
    · exact le_trans (Nat.le_succ n) (ih (n + 1) p hp)

theorem pairwise_fst_lt_enumFrom {α : Type} :
    ∀ (l : List α) (n : ℕ), (l.enumFrom n).Pairwise (fun a b => a.1 < b.1) := by
  intro l
  induction l with
  | nil => intro n; simp [List.enumFrom]
  | cons x xs ih =>
    intro n
    refine List.pairwise_cons.mpr ⟨?_, ih (n + 1)⟩
    intro p hp
    exact lt_of_lt_of_le (Nat.lt_succ_self n) (le_fst_of_mem_enumFrom xs (n + 1) p hp)

theorem candidates_pairwise_fst (store : List StoredDoc) (uid : Option String) :
    (candidates store uid).Pairwise (fun a b => a.1 < b.1) := by
  rw [candidates]
  by_cases h : pyTruthy uid
  · rw [if_pos h]
    exact (pairwise_fst_lt_enumFrom store 0).filter _
  · rw [if_neg h]
    exact pairwise_fst_lt_enumFrom store 0

/-- C2: the local similarity search returns at most `k` results — exactly `k`
when at least `k` candidates exist — ordered by non-increasing similarity
score, and candidates with equal scores appear in insertion order (the
earlier-inserted record first; `.1.1` is the insertion index). -/
theorem localSimilaritySearch_ranking (q : List ℝ) (store : List StoredDoc)
    (k : ℕ) (uid : Option String) :
    (localSimilaritySearch q store k uid).length ≤ k
    ∧ (k ≤ (candidates store uid).length →
        (localSimilaritySearch q store k uid).length = k)
    ∧ (localSimilaritySearch q store k uid).Pairwise (fun a b => b.2 ≤ a.2)
    ∧ (localSimilaritySearch q store k uid).Pairwise
        (fun a b => a.2 = b.2 → a.1.1 < b.1.1) := by
  by_cases hc : (candidates store uid).isEmpty
  · have hres : localSimilaritySearch q store k uid = [] := by
      rw [localSimilaritySearch]
      simp only [hc, if_pos]
    have hlen : (candidates store uid).length = 0 :=
      List.length_eq_zero.mpr (List.isEmpty_iff.mp hc)
    refine ⟨by rw [hres]; exact Nat.zero_le k, ?_, by rw [hres]; exact List.Pairwise.nil,
      by rw [hres]; exact List.Pairwise.nil⟩
    intro hk
    rw [hres]
    have : k = 0 := Nat.le_zero.mp (hlen ▸ hk)
    simp [this]
  · have hres : localSimilaritySearch q store k uid =
        (sortDesc ((candidates store uid).map
          (fun d => (d, cosineSimilarity q d.2.embedding)))).take k := by
      rw [localSimilaritySearch]
      simp only [hc, if_neg, Bool.false_eq_true, not_false_iff]
    have hsortlen : (sortDesc ((candidates store uid).map
        (fun d => (d, cosineSimilarity q d.2.embedding)))).length
        = (candidates store uid).length := by
      rw [(sortDesc_perm _).length_eq, List.length_map]
    have hmap_pw : ((candidates store uid).map
        (fun d => (d, cosineSimilarity q d.2.embedding))).Pairwise
        (fun a b => a.1.1 < b.1.1) := by
      rw [List.pairwise_map]
      exact candidates_pairwise_fst store uid
    rcases sortDesc_pairwise Prod.fst _ hmap_pw with ⟨hsorted, hstable⟩
    refine ⟨?_, ?_, ?_, ?_⟩
    · rw [hres, List.length_take]
      exact Nat.min_le_left _ _
    · intro hk
      rw [hres, List.length_take, hsortlen]
      exact Nat.min_eq_left hk
    · rw [hres]
      exact hsorted.sublist (List.take_sublist k _)
    · rw [hres]
      exact hstable.sublist (List.take_sublist k _)

/-- Three same-owner chunks used to instantiate the ranking theorem. -/
def c2Store : List StoredDoc :=
  [⟨"a", [1], none⟩, ⟨"b", [1], none⟩, ⟨"c", [1], none⟩]

/-- Witness for `localSimilaritySearch_ranking`: with 3 stored chunks and
`k = 2`, the search returns exactly 2 results. -/
theorem localSimilaritySearch_ranking_witness :
    2 ≤ (candidates c2Store none).length
    ∧ (localSimilaritySearch [1] c2Store 2 none).length = 2 :=
  ⟨by decide, (localSimilaritySearch_ranking [1] c2Store 2 none).2.1 (by decide)⟩

theorem snd_mem_of_mem_enumFrom {α : Type} :
    ∀ (l : List α) (n : ℕ), ∀ p ∈ l.enumFrom n, p.2 ∈ l := by
  intro l
  induction l with
  | nil => intro n p hp; simp [List.enumFrom] at hp
  | cons x xs ih =>
    intro n p hp
    rcases List.mem_cons.mp hp with rfl | hp
    · exact List.mem_cons_self x xs
    · exact List.mem_cons_of_mem x (ih (n + 1) p hp)

theorem mem_candidates_of_mem_result {q : List ℝ} {store : List StoredDoc}
    {k : ℕ} {uid : Option String} {r : (ℕ × StoredDoc) × ℝ}
    (hr : r ∈ localSimilaritySearch q store k uid) :
    r.1 ∈ candidates store uid := by
  rw [localSimilaritySearch] at hr
  by_cases hc : (candidates store uid).isEmpty
  · simp only [hc, if_pos] at hr
    exact absurd hr (List.not_mem_nil r)
  · simp only [hc, if_neg, Bool.false_eq_true, not_false_iff] at hr
    have hr' := (sortDesc_perm _).mem_iff.mp ((List.take_sublist k _).mem hr)
    rcases List.mem_map.mp hr' with ⟨d, hd, hdr⟩
    rw [← hdr]
    exact hd

theorem enum_userId_filter_true {u : String} {p : ℕ × StoredDoc}
    {store : List StoredDoc}
    (hp : p ∈ store.enum.filter (fun p => p.2.userId == some u)) :
    p.2.userId = some u := by
  have := List.of_mem_filter hp
  exact eq_of_beq this

/-- C3 (amended: the owner filter engages only for a *non-empty* owner id —
the empty string is falsy under `if user_id:` and disables filtering): with a
non-empty `owner_id`, every returned record carries exactly that owner id;
when no stored record matches the owner (in particular when the store is
empty) the search returns the empty list rather than an error. -/
theorem localSimilaritySearch_owner_isolation (q : List ℝ)
    (store : List StoredDoc) (k : ℕ) (u : String) (hu : u ≠ "") :
    (∀ r ∈ localSimilaritySearch q store k (some u), r.1.2.userId = some u)
    ∧ ((∀ d ∈ store, d.userId ≠ some u) →
        localSimilaritySearch q store k (some u) = [])
    ∧ localSimilaritySearch q [] k (some u) = [] := by
  have htruthy : pyTruthy (some u) = true := by
    rw [pyTruthy, Bool.not_eq_true']
    exact beq_eq_false_iff_ne.mpr hu
  have hcand : candidates store (some u)
      = store.enum.filter (fun p => p.2.userId == some u) := by
    rw [candidates, if_pos htruthy]
  refine ⟨?_, ?_, ?_⟩
  · intro r hr
    have := mem_candidates_of_mem_result hr
    rw [hcand] at this
    exact enum_userId_filter_true this
  · intro hnone
    have hfil : store.enum.filter (fun p => p.2.userId == some u) = [] := by
      rw [List.filter_eq_nil_iff]
      intro p hp
      rw [Bool.not_eq_true, beq_eq_false_iff_ne]
      exact hnone p.2 (snd_mem_of_mem_enumFrom store 0 p hp)
    rw [localSimilaritySearch]
    simp only [hcand, hfil, List.isEmpty_nil, if_pos]
  · have hempty : candidates [] (some u) = [] := by
      rw [candidates, if_pos htruthy]
      rfl
    rw [localSimilaritySearch]
    simp only [hempty, List.isEmpty_nil, if_pos]

/-- A single chunk stored under owner `"u2"`. -/
def c3Store : List StoredDoc := [⟨"chunk owned by u2", [1], some "u2"⟩]

/-- Counterexample to C3 as stated: a similarity search that *supplies* the
owner id `""` (the empty string — a legal `Optional[str]` value, but falsy
under `if user_id:`) returns the record stored under the different owner id
`"u2"`, so a supplied owner id does not always isolate owners. -/
theorem localSimilaritySearch_owner_isolation_cex :
    (localSimilaritySearch [1] c3Store 1 (some "")).map
      (fun r => r.1.2.userId) = [some "u2"]
    ∧ (some "u2" : Option String) ≠ some "" :=
  ⟨rfl, by decide⟩

/-- Witness for `localSimilaritySearch_owner_isolation`: searching for owner
`"u1"` in a store holding only a `"u2"` chunk returns the empty list. -/
theorem localSimilaritySearch_owner_isolation_witness :
    localSimilaritySearch [1] c3Store 3 (some "u1") = [] :=
  (localSimilaritySearch_owner_isolation [1] c3Store 3 "u1" (by decide)).2.1
    (by decide)

/-- The outer `similarity_search` of `mongodb_store.py` (lines 100-173) /
`faiss_store.py` (lines 63-101), with its two failure sources made explicit:
the query-embedding call and the fetch from the backing store.  The whole
body sits in a `try` whose handler does `return []`, so *every* failure is
caught and converted into a normally-returned empty list; the function never
propagates an error (`.error` is never returned). -/
noncomputable def similaritySearchOutcome (embedResult : Except String (List ℝ))
    (fetchResult : Except String (List StoredDoc)) (k : ℕ)
    (userId : Option String) :
    Except String (List ((ℕ × StoredDoc) × ℝ)) :=
  match embedResult with
  | .error _ => .ok []
  | .ok q =>
    match fetchResult with
    | .error _ => .ok []
    | .ok store => .ok (localSimilaritySearch q store k userId)

/-- C5 (amended: the code does the opposite of surfacing — both failure
modes are swallowed): when query-embedding generation fails, or the backing
store is unreachable, `similarity_search` catches the exception and returns
a normal, empty result list; the error is never surfaced to the caller. -/
theorem similaritySearch_swallows_failures :
    (∀ (e : String) (fetchResult : Except String (List StoredDoc)) (k : ℕ)
        (uid : Option String),
      similaritySearchOutcome (.error e) fetchResult k uid = .ok [])
    ∧ (∀ (q : List ℝ) (e : String) (k : ℕ) (uid : Option String),
      similaritySearchOutcome (.ok q) (.error e) k uid = .ok []) :=
  ⟨fun _ _ _ _ => rfl, fun _ _ _ _ => rfl⟩

/-- Counterexample to C5 as stated: an embedding failure (and likewise a
storage failure) does *not* abort the search with an error — even with a
matching record present, the caller receives the normally-returned empty
list, indistinguishable from a genuine no-match outcome. -/
theorem similaritySearch_swallows_failures_cex :
    similaritySearchOutcome (.error "embedding service unavailable")
      (.ok [⟨"relevant chunk", [1], none⟩]) 4 none = .ok []
    ∧ similaritySearchOutcome (.ok [1]) (.error "mongodb unreachable") 4 none
      = .ok []
    ∧ (∀ e : String,
        similaritySearchOutcome (.error e)
          (.ok [⟨"relevant chunk", [1], none⟩]) 4 none ≠ .error e) := by
  refine ⟨rfl, rfl, ?_⟩
  intro e h
  exact Except.noConfusion h

/-- One document as returned to the `retrieve` tool: page content plus the
string-valued metadata mapping it formats (`engine.py` lines 66-77). -/
structure RetrievedDoc where
  pageContent : String
  metadata : List (String × String)

/-- Python's `dict.get(key, default)` on the string-metadata mapping. -/
def metaGetD (m : List (String × String)) (key dflt : String) : String :=
  match m.find? (fun p => p.1 == key) with
  | some p => p.2
  | none => dflt

/-- The per-document block built by the `retrieve` tool (`engine.py`
lines 72-75): source (title, falling back to source, then "Unknown"),
similarity and content.  `document_id` is read by the code but unused in
the output. -/
def formatDoc (i : ℕ) (d : RetrievedDoc) : String :=
  "Document " ++ toString i ++ ":\n"
    ++ "Source: "
    ++ metaGetD d.metadata "title" (metaGetD d.metadata "source" "Unknown")
    ++ "\n"
    ++ "Similarity: " ++ metaGetD d.metadata "similarity_score" "N/A" ++ "\n"
    ++ "Content: " ++ d.pageContent ++ "\n"

/-- `"=" * 50` (`engine.py` line 79). -/
def separatorLine : String := String.mk (List.replicate 50 '=')

/-- The two no-result messages of the `retrieve` tool (`engine.py`
lines 55-60), selected by the truthiness of `user_id`. -/
def noDocsMessage (userId : Option String) : String :=
  if pyTruthy userId then
    "No relevant documents found for this query in your personal knowledge base. You may want to upload some documents first."
  else
    "No relevant documents found for this query in the knowledge base."

/-- The `retrieve` tool (`engine.py` lines 42-88).  Its whole body is inside
`try`; the handler returns `f"Error retrieving documents: {e}"`, so the tool
is total: a raising vector index becomes a textual error output, an empty
result list becomes a fixed no-documents message, and a non-empty list is
formatted into one separated text block. -/
def retrieveOutput (searchResult : Except String (List RetrievedDoc))
    (userId : Option String) : String :=
  match searchResult with
  | .error e => "Error retrieving documents: " ++ e
  | .ok docs =>
    if docs.isEmpty then noDocsMessage userId
    else
      "\n" ++ separatorLine
        ++ String.intercalate "\n"
            (docs.enum.map (fun p => formatDoc (p.1 + 1) p.2))

theorem errorOutput_head (e : String) :
    ("Error retrieving documents: " ++ e).data.head? = some 'E' := by
  rw [String.data_append]
  have h : "Error retrieving documents: ".data
      = 'E' :: "rror retrieving documents: ".data := rfl
  rw [h, List.cons_append]
  rfl

theorem noDocsMessage_head (uid : Option String) :
    (noDocsMessage uid).data.head? = some 'N' := by
  rw [noDocsMessage]
  by_cases h : pyTruthy uid
  · rw [if_pos h]; rfl
  · rw [if_neg h]; rfl

/-- C6: the `retrieve` tool never raises (it is a total function of the
search outcome); an empty search result yields a non-empty "no relevant
documents found" message, and a raising vector index yields a textual error
message that is distinct from every empty-result message. -/
theorem retrieveOutput_spec (searchResult : Except String (List RetrievedDoc))
    (uid : Option String) :
    (searchResult = .ok [] →
      retrieveOutput searchResult uid = noDocsMessage uid
      ∧ noDocsMessage uid ≠ "")
    ∧ (∀ e, searchResult = .error e →
      retrieveOutput searchResult uid = "Error retrieving documents: " ++ e
      ∧ (∀ uid', "Error retrieving documents: " ++ e ≠ noDocsMessage uid')) := by
  constructor
  · intro h
    subst h
    refine ⟨rfl, ?_⟩
    intro habs
    have h2 : (noDocsMessage uid).data.head? = ("" : String).data.head? := by
      rw [habs]
    rw [noDocsMessage_head uid] at h2
    exact Option.noConfusion h2
  · intro e h
    subst h
    refine ⟨rfl, ?_⟩
    intro uid' habs
    have h2 : ("Error retrieving documents: " ++ e).data.head?
        = (noDocsMessage uid').data.head? := by
      rw [habs]
    rw [errorOutput_head e, noDocsMessage_head uid'] at h2
    exact absurd (Option.some.inj h2) (by decide)

/-- Witness for `retrieveOutput_spec`: the empty-result branch at a concrete
empty result, and the error branch at a concrete exception text. -/
theorem retrieveOutput_spec_witness :
    retrieveOutput (.ok []) none = noDocsMessage none
    ∧ "Error retrieving documents: " ++ "connection reset" ≠ noDocsMessage (some "u1") :=
  ⟨((retrieveOutput_spec (.ok []) none).1 rfl).1,
    ((retrieveOutput_spec (.error "connection reset") none).2 "connection reset" rfl).2
      (some "u1")⟩

/-- Message roles used by the engine (`msg.type` in `engine.py`). -/
inductive Role
  | system
  | user
  | assistant
  | tool
deriving DecidableEq

/-- One message of the conversation history: role, content, the tool-call
requests an assistant message carries, and the call id a tool-role message
answers. -/
structure Msg where
  role : Role
  content : String
  toolCalls : List String
  toolCallId : Option String
deriving DecidableEq

/-- `any(msg.type == "system" for msg in messages)` (`engine.py` line 132). -/
def hasSystem (messages : List Msg) : Bool :=
  messages.any (fun m => decide (m.role = Role.system))

/-- The fixed system instruction of `call_model` (`engine.py` lines 133-140);
the vector-store type is interpolated into it.  The missing space before
"Always" reproduces the adjacent string literals of the source. -/
def systemPrompt (vst : String) : String :=
  "You are a helpful AI assistant with access to a knowledge base through document retrieval. "
    ++ "You are using a " ++ vst ++ " vector store for document search. "
    ++ "When users ask questions, use the retrieve tool to find relevant information from the stored documents. "
    ++ "If you find relevant documents, base your answer on that information and cite the sources. "
    ++ "If no relevant documents are found, let the user know no information is found in the database."
    ++ "Always be helpful, accurate, and cite your sources when using retrieved information."

/-- The `SystemMessage` object prepended by `call_model`. -/
def systemMessage (vst : String) : Msg :=
  { role := Role.system, content := systemPrompt vst, toolCalls := [],
    toolCallId := none }

/-- The message list `call_model` actually sends to the language model
(`engine.py` lines 121-144): the history unchanged, except that the fixed
system instruction is prepended when and only when no system message is
present. -/
def callModelMessages (vst : String) (messages : List Msg) : List Msg :=
  if hasSystem messages then messages else systemMessage vst :: messages

/-- A history ends with a dangling assistant message when its last message is
an assistant message carrying tool calls — being last, those calls are
necessarily unanswered. -/
def hasDanglingTail (messages : List Msg) : Bool :=
  match messages.getLast? with
  | some m => decide (m.role = Role.assistant) && !m.toolCalls.isEmpty
  | none => false

/-- `thread_id = thread_id or str(uuid.uuid4())` (`engine.py` line 185):
Python `or` falls through to the fresh token for `None` *and* for the empty
string. -/
def pyOrFresh : Option String → String → String
  | none, fresh => fresh
  | some s, fresh => if s = "" then fresh else s

/-- The fallback text built by the `except` handler of `process_message`
(`engine.py` lines 243-247): it interpolates the exception text and the
configured vector-store type. -/
def errorResponse (vst e : String) : String :=
  "I encountered a technical issue while processing your request: " ++ e
    ++ ". This might be due to vector store connectivity or configuration issues. "
    ++ "Please check that your " ++ vst ++ " vector store is properly configured."

/-- `process_message` (`engine.py` lines 179-249).  `attempt n` is the
outcome of the `(n+1)`-st possible model invocation; the source invokes the
graph exactly once (`self.graph.invoke`, line 211), so only `attempt 0` is
consulted: a success is returned as the response text, and any failure is
caught and mapped to the fallback — with no repair pass and no retry. -/
def processMessage (vst : String) (attempt : ℕ → Except String String)
    (threadId : Option String) (freshId : String) : String × String :=
  let tid := pyOrFresh threadId freshId
  match attempt 0 with
  | .ok r => (r, tid)
  | .error e => (errorResponse vst e, tid)

/-- C8: `call_model` prepends the fixed system instruction to the front of
the messages sent to the model if and only if no system-role message is
present; when one is present the history is sent unchanged. -/
theorem callModel_system_injection (vst : String) (msgs : List Msg) :
    (hasSystem msgs = false →
      callModelMessages vst msgs = systemMessage vst :: msgs)
    ∧ (hasSystem msgs = true → callModelMessages vst msgs = msgs) := by
  constructor
  · intro h
    rw [callModelMessages, h]
    rfl
  · intro h
    rw [callModelMessages, h]
    rfl

/-- A plain user message, used to instantiate the engine theorems. -/
def userMsg : Msg := ⟨Role.user, "what is in my documents?", [], none⟩

/-- Witness for `callModel_system_injection`: a history holding one user
message gets the system instruction prepended. -/
theorem callModel_system_injection_witness :
    hasSystem [userMsg] = false
    ∧ callModelMessages "mongodb" [userMsg]
      = systemMessage "mongodb" :: [userMsg] :=
  ⟨by decide, (callModel_system_injection "mongodb" [userMsg]).1 (by decide)⟩

/-- An assistant message whose tool call was never answered. -/
def danglingAssistantMsg : Msg := ⟨Role.assistant, "", ["call_abc123"], none⟩

/-- A history ending in a dangling assistant message. -/
def danglingHistory : List Msg := [userMsg, danglingAssistantMsg]

/-- Counterexample to C4 as stated: the engine has no repair pass — on a
history whose tail is an assistant message with an unanswered tool call, the
message list sent to the model by `call_model` still ends with that same
dangling assistant message. -/
theorem engine_no_repair_cex :
    hasDanglingTail danglingHistory = true
    ∧ hasDanglingTail (callModelMessages "mongodb" danglingHistory) = true
    ∧ (callModelMessages "mongodb" danglingHistory).getLast?
        = some danglingAssistantMsg := by
  refine ⟨by decide, by decide, by decide⟩

theorem hasDanglingTail_cons_cons (x y : Msg) (l : List Msg) :
    hasDanglingTail (x :: y :: l) = hasDanglingTail (y :: l) := by
  rw [hasDanglingTail, hasDanglingTail, List.getLast?_cons_cons]

/-- C4 (amended: the code contains no dangling-tool-call repair and no
repair-and-retry pass): `call_model` sends the history to the model with a
dangling assistant tail preserved — its only change is the system-message
prepend — and when the single model invocation fails, `process_message`
consults no further invocation attempt and immediately returns the
fallback. -/
theorem engine_no_repair_no_retry :
    (∀ (vst : String) (msgs : List Msg), hasDanglingTail msgs = true →
      hasDanglingTail (callModelMessages vst msgs) = true)
    ∧ (∀ (vst : String) (f g : ℕ → Except String String)
        (tid : Option String) (fresh : String), f 0 = g 0 →
      processMessage vst f tid fresh = processMessage vst g tid fresh)
    ∧ (∀ (vst : String) (f : ℕ → Except String String) (tid : Option String)
        (fresh e : String), f 0 = Except.error e →
      processMessage vst f tid fresh = (errorResponse vst e, pyOrFresh tid fresh)) := by
  refine ⟨?_, ?_, ?_⟩
  · intro vst msgs h
    rw [callModelMessages]
    by_cases hs : hasSystem msgs
    · rw [if_pos hs]
      exact h
    · rw [if_neg hs]
      cases msgs with
      | nil => simp [hasDanglingTail, List.getLast?] at h
      | cons m ms => rw [hasDanglingTail_cons_cons]; exact h
  · intro vst f g tid fresh h
    rw [processMessage, processMessage, h]
  · intro vst f tid fresh e h
    rw [processMessage, h]

/-- Witness for `engine_no_repair_no_retry`: instantiated on the concrete
dangling history and on a concretely failing model invocation. -/
theorem engine_no_repair_no_retry_witness :
    hasDanglingTail (callModelMessages "mongodb" danglingHistory) = true
    ∧ processMessage "mongodb" (fun _ => Except.error "rate limited")
        (some "thread-7") "fresh-uuid"
      = (errorResponse "mongodb" "rate limited", pyOrFresh (some "thread-7") "fresh-uuid") :=
  ⟨engine_no_repair_no_retry.1 "mongodb" danglingHistory (by decide),
    engine_no_repair_no_retry.2.2 "mongodb" (fun _ => Except.error "rate limited")
      (some "thread-7") "fresh-uuid" "rate limited" rfl⟩

theorem errorResponse_head (vst e : String) :
    (errorResponse vst e).data.head? = some 'I' := by
  rw [errorResponse, String.data_append, String.data_append, String.data_append,
    String.data_append, String.data_append]
  have h : "I encountered a technical issue while processing your request: ".data
      = 'I' :: " encountered a technical issue while processing your request: ".data := by
    rfl
  rw [h, List.cons_append]
  rfl

/-- Counterexample to C7 as stated: the fallback response is not a fixed
string — two different model failures produce two different fallback texts
(the exception detail is interpolated) — and a caller-supplied empty-string
thread id (a present value, but falsy under Python `or`) is replaced by the
freshly generated token instead of being returned. -/
theorem processMessage_fixed_fallback_cex :
    (processMessage "mongodb" (fun _ => Except.error "timeout") (some "t1") "fresh").1
      ≠ (processMessage "mongodb" (fun _ => Except.error "rate limited") (some "t1") "fresh").1
    ∧ (processMessage "mongodb" (fun _ => Except.ok "hello") (some "") "generated-uuid").2
      = "generated-uuid"
    ∧ "generated-uuid" ≠ ("" : String) := by
  refine ⟨by decide, rfl, by decide⟩

/-- C7 (amended: the thread id is the supplied one only when it is non-empty,
and the fallback is not a fixed string but a "technical issue" text that
interpolates the error detail): `process_message` always returns a
(response, thread id) pair; the thread id is the caller's when supplied and
non-empty and the freshly generated token otherwise; a failing model
invocation does not raise — it yields the non-empty fallback text together
with that thread id. -/
theorem processMessage_spec (vst : String) (f : ℕ → Except String String)
    (tidOpt : Option String) (fresh : String) :
    (∀ t, tidOpt = some t → t ≠ "" → (processMessage vst f tidOpt fresh).2 = t)
    ∧ (tidOpt = none → (processMessage vst f tidOpt fresh).2 = fresh)
    ∧ (∀ r, f 0 = Except.ok r →
        processMessage vst f tidOpt fresh = (r, pyOrFresh tidOpt fresh))
    ∧ (∀ e, f 0 = Except.error e →
        processMessage vst f tidOpt fresh = (errorResponse vst e, pyOrFresh tidOpt fresh)
        ∧ errorResponse vst e ≠ "") := by
  have hsnd : (processMessage vst f tidOpt fresh).2 = pyOrFresh tidOpt fresh := by
    rw [processMessage]
    cases f 0 with
    | ok r => rfl
    | error e => rfl
  refine ⟨?_, ?_, ?_, ?_⟩
  · intro t ht hne
    rw [hsnd, ht, pyOrFresh, if_neg hne]
  · intro ht
    rw [hsnd, ht, pyOrFresh]
  · intro r hr
    rw [processMessage, hr]
  · intro e he
    refine ⟨by rw [processMessage, he], ?_⟩
    intro habs
    have h2 : (errorResponse vst e).data.head? = ("" : String).data.head? := by
      rw [habs]
    rw [errorResponse_head vst e] at h2
    exact Option.noConfusion h2

/-- Witness for `processMessage_spec`: a concrete failing invocation with a
supplied non-empty thread id. -/
theorem processMessage_spec_witness :
    (processMessage "mongodb" (fun _ => Except.error "timeout") (some "t1") "fresh").2 = "t1"
    ∧ processMessage "mongodb" (fun _ => Except.error "timeout") (some "t1") "fresh"
      = (errorResponse "mongodb" "timeout", pyOrFresh (some "t1") "fresh") :=
  ⟨(processMessage_spec "mongodb" (fun _ => Except.error "timeout")
      (some "t1") "fresh").1 "t1" rfl (by decide),
    ((processMessage_spec "mongodb" (fun _ => Except.error "timeout")
      (some "t1") "fresh").2.2.2 "timeout" rfl).1⟩

/-- `MongoDBCheckpointer.get` (`checkpointer.py` lines 14-19): look the
thread up in the collection (modelled as a map keyed by `thread_id`) and
return its stored state, or `None` when no document exists. -/
def MongoDBCheckpointer.get {α : Type} (collection : String → Option α)
    (threadId : String) : Option α :=
  collection threadId

/-- `MongoDBCheckpointer.put` (`checkpointer.py` lines 21-27):
`update_one(..., upsert=True)` — replace the state stored under
`thread_id`, inserting the document if absent. -/
def MongoDBCheckpointer.put {α : Type} (collection : String → Option α)
    (threadId : String) (state : α) : String → Option α :=
  fun t => if t = threadId then some state else collection t

/-- Counterexample to C9 as stated: loading an unknown thread id from an
empty collection yields `None` (Python `return None`, line 19 of
`checkpointer.py`), not an empty message list. -/
theorem checkpointer_get_unknown_cex :
    MongoDBCheckpointer.get (α := List String) (fun _ => none) "unknown-thread"
      = none
    ∧ MongoDBCheckpointer.get (α := List String) (fun _ => none) "unknown-thread"
      ≠ some [] :=
  ⟨rfl, fun h => Option.noConfusion h⟩

/-- C9 (amended: loading an unknown thread id yields `None` — no state —
rather than an empty message list): saving a state under a thread id and
loading by the same id returns exactly that state (upsert round-trip),
other thread ids are unaffected, and an unknown id loads as `None`. -/
theorem checkpointer_upsert_roundtrip {α : Type}
    (collection : String → Option α) (tid : String) (st : α) :
    MongoDBCheckpointer.get (MongoDBCheckpointer.put collection tid st) tid
      = some st
    ∧ (∀ t, t ≠ tid →
        MongoDBCheckpointer.get (MongoDBCheckpointer.put collection tid st) t
          = MongoDBCheckpointer.get collection t)
    ∧ MongoDBCheckpointer.get (α := α) (fun _ => none) tid = none := by
  refine ⟨?_, ?_, rfl⟩
  · rw [MongoDBCheckpointer.get, MongoDBCheckpointer.put, if_pos rfl]
  · intro t ht
    rw [MongoDBCheckpointer.get, MongoDBCheckpointer.put, if_neg ht]
    rfl

/-- Witness for `checkpointer_upsert_roundtrip`: one concrete save followed
by a reload of the same and of a different thread id. -/
theorem checkpointer_upsert_roundtrip_witness :
    MongoDBCheckpointer.get
        (MongoDBCheckpointer.put (α := List String) (fun _ => none) "t1" ["hello"]) "t1"
      = some ["hello"]
    ∧ MongoDBCheckpointer.get
        (MongoDBCheckpointer.put (α := List String) (fun _ => none) "t1" ["hello"]) "t2"
      = none :=
  ⟨(checkpointer_upsert_roundtrip (fun _ => none) "t1" ["hello"]).1,
    ((checkpointer_upsert_roundtrip (fun _ => none) "t1" ["hello"]).2.1 "t2"
      (by decide)).trans rfl⟩

/-- A caller-side document handed to `add_documents`: page content and its
(string-valued) metadata dict. -/
structure PyDoc where
  pageContent : String
  metadata : List (String × String)
deriving DecidableEq

/-- `doc.metadata["user_id"] = user_id`: the Python dict update, on the
assoc-list model of the metadata dict (replace the existing binding, or
append a new one). -/
def setMeta : List (String × String) → String → String → List (String × String)
  | [], k, v => [(k, v)]
  | p :: rest, k, v => if p.1 = k then (k, v) :: rest else p :: setMeta rest k v

/-- The caller-visible effect of `add_documents` on the passed document
list (`faiss_store.py` lines 41-47, `mongodb_store.py` lines 63-70): the
documents are mutated in place, so after the call the caller's documents
carry `metadata["user_id"] = user_id` — but only when `user_id` is truthy
(`if user_id:`), so `None` and the empty string leave them untouched. -/
def addDocumentsEffect (docs : List PyDoc) (userId : Option String) :
    List PyDoc :=
  match userId with
  | some u =>
    if u = "" then docs
    else docs.map (fun d => ⟨d.pageContent, setMeta d.metadata "user_id" u⟩)
  | none => docs

theorem setMeta_find (m : List (String × String)) (k v : String) :
    (setMeta m k v).find? (fun p => p.1 == k) = some (k, v) := by
  induction m with
  | nil => simp [setMeta]
  | cons p rest ih =>
    rw [setMeta]
    by_cases h : p.1 = k
    · rw [if_pos h]
      simp
    · rw [if_neg h]
      rw [List.find?]
      have hb : (p.1 == k) = false := beq_eq_false_iff_ne.mpr h
      rw [hb]
      exact ih

/-- Counterexample to C10 as stated: supplying the empty-string `user_id`
(a legal `Optional[str]` value, falsy under `if user_id:`) leaves every
passed document untouched — no `user_id` key is written into its
metadata. -/
theorem addDocuments_tags_owner_cex :
    addDocumentsEffect [⟨"hello", []⟩] (some "") = [⟨"hello", []⟩]
    ∧ (addDocumentsEffect [⟨"hello", []⟩] (some "")).all
        (fun d => (d.metadata.find? (fun p => p.1 == "user_id")).isNone) = true :=
  ⟨rfl, rfl⟩

/-- C10 (amended: the in-place tagging happens for every supplied
*non-empty* user id): after `add_documents` with a non-empty `user_id`,
every document the caller passed carries `metadata["user_id"] = user_id`,
while page contents and the number of documents are unchanged. -/
theorem addDocuments_tags_owner (docs : List PyDoc) (u : String)
    (hu : u ≠ "") :
    (∀ d ∈ addDocumentsEffect docs (some u),
      d.metadata.find? (fun p => p.1 == "user_id") = some ("user_id", u))
    ∧ (addDocumentsEffect docs (some u)).map (fun d => d.pageContent)
      = docs.map (fun d => d.pageContent)
    ∧ (addDocumentsEffect docs (some u)).length = docs.length := by
  have heff : addDocumentsEffect docs (some u)
      = docs.map (fun d => ⟨d.pageContent, setMeta d.metadata "user_id" u⟩) := by
    rw [addDocumentsEffect, if_neg hu]
  refine ⟨?_, ?_, ?_⟩
  · intro d hd
    rw [heff] at hd
    rcases List.mem_map.mp hd with ⟨d0, _, rfl⟩
    exact setMeta_find d0.metadata "user_id" u
  · rw [heff, List.map_map]
    rfl
  · rw [heff, List.length_map]

/-- Witness for `addDocuments_tags_owner`: one concrete document tagged for
owner `"u1"`. -/
theorem addDocuments_tags_owner_witness :
    (⟨"hello", [("title", "t"), ("user_id", "u1")]⟩ : PyDoc).metadata.find?
      (fun p => p.1 == "user_id") = some ("user_id", "u1") :=
  (addDocuments_tags_owner [⟨"hello", [("title", "t")]⟩] "u1" (by decide)).1
    ⟨"hello", [("title", "t"), ("user_id", "u1")]⟩ (by decide)
